import Mathlib

/-!
Shallow embedding of `src/purch_proposal.py` (grocery purchase proposal system).

The embedded parts are:
* the six threshold configuration constants (lines 8-14), as exact rationals;
* `generate_association_rules` (lines 57-104): the support-escalation passes over
  `apriori`, the confidence-escalation passes over `association_rules`, and the
  surrounding `try/except` that turns any raised error into an empty dataframe.
  The two library calls (`mlxtend.frequent_patterns.apriori` / `association_rules`)
  are external collaborators, so they appear as function parameters returning
  `Except String (List _)` (`Except.error` models a raised Python exception);
  the embedding additionally records the list of thresholds each collaborator is
  called with, in call order, so that theorems can speak about which passes run;
* `parse_input_items` (lines 106-125);
* `find_best_recommendation` (lines 127-165), where a Python `frozenset` of items
  becomes a `Finset String`, the iteration order of a consequent `frozenset`
  becomes a `List String`, pandas `idxmax` becomes first-index-of-maximum, and the
  `IndexError` that `list(...)[0]` raises on an empty consequent is modelled by
  `Except.error`.
-/

namespace PurchProposal

/-- Line 9: `MIN_SUPPORT_PRIMARY = 0.005`. -/
def MIN_SUPPORT_PRIMARY : ℚ := 0.005

/-- Line 10: `MIN_SUPPORT_SECONDARY = 0.002`. -/
def MIN_SUPPORT_SECONDARY : ℚ := 0.002

/-- Line 11: `MIN_SUPPORT_MINIMUM = 0.001`. -/
def MIN_SUPPORT_MINIMUM : ℚ := 0.001

/-- Line 12: `MIN_CONFIDENCE_PRIMARY = 0.01`. -/
def MIN_CONFIDENCE_PRIMARY : ℚ := 0.01

/-- Line 13: `MIN_CONFIDENCE_SECONDARY = 0.005`. -/
def MIN_CONFIDENCE_SECONDARY : ℚ := 0.005

/-- Line 14: `MIN_CONFIDENCE_MINIMUM = 0.001`. -/
def MIN_CONFIDENCE_MINIMUM : ℚ := 0.001

/-- Lines 71-79 of `generate_association_rules`: run `apriori` at the primary
support threshold; if the resulting frequent-itemset collection is empty, rerun
at the secondary threshold; if still empty, rerun at the minimum threshold.
`ap` is the `apriori` collaborator (`Except.error` = raised exception, which in
the source propagates to the `except` on line 102). The first component records
the support thresholds passed to `ap`, in call order; the second is the value of
the Python variable `frequent_itemsets` after line 79 (or the exception). -/
def mineFrequentItemsets {α : Type} (ap : ℚ → Except String (List α)) :
    List ℚ × Except String (List α) :=
  match ap MIN_SUPPORT_PRIMARY with
  | Except.error e => ([MIN_SUPPORT_PRIMARY], Except.error e)
  | Except.ok f1 =>
    if f1.isEmpty then
      match ap MIN_SUPPORT_SECONDARY with
      | Except.error e =>
          ([MIN_SUPPORT_PRIMARY, MIN_SUPPORT_SECONDARY], Except.error e)
      | Except.ok f2 =>
        if f2.isEmpty then
          match ap MIN_SUPPORT_MINIMUM with
          | Except.error e =>
              ([MIN_SUPPORT_PRIMARY, MIN_SUPPORT_SECONDARY, MIN_SUPPORT_MINIMUM],
                Except.error e)
          | Except.ok f3 =>
              ([MIN_SUPPORT_PRIMARY, MIN_SUPPORT_SECONDARY, MIN_SUPPORT_MINIMUM],
                Except.ok f3)
        else ([MIN_SUPPORT_PRIMARY, MIN_SUPPORT_SECONDARY], Except.ok f2)
    else ([MIN_SUPPORT_PRIMARY], Except.ok f1)

/-- Lines 84-98 of `generate_association_rules`: run `association_rules` on the
mined frequent itemsets `fi` at the caller's confidence threshold
`min_confidence`; if the resulting rule set is empty, rerun at
`MIN_CONFIDENCE_SECONDARY`; if still empty, rerun at `MIN_CONFIDENCE_MINIMUM`.
`ar` is the `association_rules` collaborator. The first component records the
confidence thresholds passed to `ar`, in call order; the second is the value of
the Python variable `rules` at line 100 (or the exception). -/
def genRulesEscalation {α β : Type} (ar : List α → ℚ → Except String (List β))
    (fi : List α) (min_confidence : ℚ) : List ℚ × Except String (List β) :=
  match ar fi min_confidence with
  | Except.error e => ([min_confidence], Except.error e)
  | Except.ok r1 =>
    if r1.isEmpty then
      match ar fi MIN_CONFIDENCE_SECONDARY with
      | Except.error e =>
          ([min_confidence, MIN_CONFIDENCE_SECONDARY], Except.error e)
      | Except.ok r2 =>
        if r2.isEmpty then
          match ar fi MIN_CONFIDENCE_MINIMUM with
          | Except.error e =>
              ([min_confidence, MIN_CONFIDENCE_SECONDARY, MIN_CONFIDENCE_MINIMUM],
                Except.error e)
          | Except.ok r3 =>
              ([min_confidence, MIN_CONFIDENCE_SECONDARY, MIN_CONFIDENCE_MINIMUM],
                Except.ok r3)
        else ([min_confidence, MIN_CONFIDENCE_SECONDARY], Except.ok r2)
    else ([min_confidence], Except.ok r1)

/-- Observable outcome of `generate_association_rules` (lines 57-104):
the support thresholds `apriori` was called with, the confidence thresholds
`association_rules` was called with (each in call order), and the returned
rule dataframe. -/
structure GenResult (β : Type) where
  supportCalls : List ℚ
  confCalls : List ℚ
  result : List β

/-- Lines 57-104: `generate_association_rules(df, min_confidence)`. The whole
body sits in a `try:` whose `except` (lines 102-104) returns an empty dataframe,
so a raised exception anywhere yields `result = []` and no further calls. -/
def generate_association_rules {α β : Type} (ap : ℚ → Except String (List α))
    (ar : List α → ℚ → Except String (List β)) (min_confidence : ℚ) :
    GenResult β :=
  let m := mineFrequentItemsets ap
  match m.2 with
  | Except.error _ => ⟨m.1, [], []⟩
  | Except.ok fi =>
    let g := genRulesEscalation ar fi min_confidence
    match g.2 with
    | Except.error _ => ⟨m.1, g.1, []⟩
    | Except.ok rs => ⟨m.1, g.1, rs⟩

/-- Python `str.isspace` characters in the ASCII range, as stripped by
`str.strip()`: space, tab, newline, carriage return, vertical tab, form feed. -/
def isPySpace (c : Char) : Bool :=
  c = ' ' ∨ c = '\t' ∨ c = '\n' ∨ c = '\r' ∨ c = '\x0b' ∨ c = '\x0c'

/-- Python `item.strip()` on a string viewed as its character sequence:
drop leading and trailing whitespace. -/
def strip (s : List Char) : List Char :=
  ((s.dropWhile isPySpace).reverse.dropWhile isPySpace).reverse

/-- Python `item.lower()` (ASCII case folding), character-wise. -/
def lower (s : List Char) : List Char := s.map Char.toLower

/-- Python `input_str.split(',')` on a string viewed as its character sequence:
`''.split(',') = ['']`, and adjacent commas produce empty pieces. -/
def splitOnComma : List Char → List (List Char)
  | [] => [[]]
  | c :: cs =>
    match splitOnComma cs with
    | [] => [[]]
    | p :: ps => if c = ',' then [] :: p :: ps else (c :: p) :: ps

/-- Lines 106-125: `parse_input_items(input_str)`, with Python strings embedded
as character lists. Split on commas, apply `.strip().lower()` to each piece,
drop empty strings, and cut to the first 3 items when more than 3 remain. -/
def parse_input_items (input_str : List Char) : List (List Char) :=
  let items := (splitOnComma input_str).map (fun item => lower (strip item))
  let items := items.filter (fun item => item ≠ [])
  if items.length > 3 then items.take 3 else items

/-- One row of the `rules` dataframe, as `find_best_recommendation` reads it:
the `antecedents` frozenset, the `consequents` frozenset in its (fixed,
run-deterministic) iteration order, and the `confidence` value. -/
structure Rule where
  antecedents : Finset String
  consequents : List String
  confidence : ℚ
  deriving DecidableEq

/-- `matching_rules.loc[matching_rules['confidence'].idxmax()]` over a list of
rows: pandas `idxmax` selects the first row (in index order) whose confidence
attains the maximum, so later rows replace the running best only on strictly
greater confidence. Accumulator form. -/
def idxmaxGo (best : Rule) : List Rule → Rule
  | [] => best
  | r :: rs => idxmaxGo (if best.confidence < r.confidence then r else best) rs

/-- First row of maximal confidence, `none` on the empty row list (the source
only calls `idxmax` behind a nonemptiness guard). -/
def idxmaxConfidence : List Rule → Option Rule
  | [] => none
  | r :: rs => some (idxmaxGo r rs)

/-- Lines 142-145: `input_set = frozenset(input_items)` and
`matching_rules = rules[rules['antecedents'] == input_set]` — the rows whose
antecedent frozenset equals the deduplicated query set, in row order. -/
def exactMatches (input_items : List String) (rules : List Rule) : List Rule :=
  rules.filter (fun r => r.antecedents = input_items.toFinset)

/-- Lines 156-158: `first_item_set = frozenset([first_item])` and
`first_item_rules = rules[rules['antecedents'] == first_item_set]`. -/
def singletonMatches (first_item : String) (rules : List Rule) : List Rule :=
  rules.filter (fun r => r.antecedents = ({first_item} : Finset String))

/-- Lines 127-165: `find_best_recommendation(input_items, rules)`.
`Except.ok (some c)` = the function returns item `c`; `Except.ok none` =
the function returns `None`; `Except.error ()` = the `IndexError` raised by
`list(best_rule['consequents'])[0]` when the winning rule's consequent frozenset
is empty. `if not matching_rules.empty` followed by `.idxmax()` corresponds to
`idxmaxConfidence` returning `some`. -/
def find_best_recommendation (input_items : List String) (rules : List Rule) :
    Except Unit (Option String) :=
  if rules.isEmpty then Except.ok none
  else
    match idxmaxConfidence (exactMatches input_items rules) with
    | some best_rule =>
      match best_rule.consequents with
      | [] => Except.error ()
      | c :: _ => Except.ok (some c)
    | none =>
      match input_items with
      | [] => Except.ok none
      | first_item :: _ =>
        match idxmaxConfidence (singletonMatches first_item rules) with
        | some best_rule =>
          match best_rule.consequents with
          | [] => Except.error ()
          | c :: _ => Except.ok (some c)
        | none => Except.ok none

/-- Well-formedness of a rule row, from the data model: `mlxtend` only emits
rules whose antecedent and consequent are non-empty (each is a non-empty proper
subset of a frequent itemset of size ≥ 2 and its complement). -/
def RuleWF (r : Rule) : Prop := r.antecedents ≠ ∅ ∧ r.consequents ≠ []

instance (r : Rule) : Decidable (RuleWF r) :=
  inferInstanceAs (Decidable (r.antecedents ≠ ∅ ∧ r.consequents ≠ []))

/-! ### Sample inputs, used to instantiate the theorems on concrete data -/

/-- Sample rule: `{a, b} → {c}`, confidence 1/2. -/
def ruleAB : Rule := ⟨{"a", "b"}, ["c"], 1/2⟩

/-- Sample rule: `{a} → {d}`, confidence 3/4. -/
def ruleA : Rule := ⟨{"a"}, ["d"], 3/4⟩

/-- Sample rule: `{a} → {e}`, confidence 1/4. -/
def ruleA2 : Rule := ⟨{"a"}, ["e"], 1/4⟩

/-- A small well-formed rule set. -/
def sampleRules : List Rule := [ruleAB, ruleA, ruleA2]

/-- An `apriori` collaborator that is non-empty already at the first pass. -/
def apPrimaryHit : ℚ → Except String (List ℕ) := fun _ => Except.ok [1]

/-- An `apriori` collaborator that is empty at the primary threshold and
non-empty elsewhere. -/
def apSecondaryHit : ℚ → Except String (List ℕ) :=
  fun q => if q = MIN_SUPPORT_PRIMARY then Except.ok [] else Except.ok [2]

/-- An `apriori` collaborator that is empty at every threshold. -/
def apAllEmpty : ℚ → Except String (List ℕ) := fun _ => Except.ok []

/-- An `apriori` collaborator that raises. -/
def apRaises : ℚ → Except String (List ℕ) := fun _ => Except.error "boom"

/-- An `association_rules` collaborator that always yields no rules. -/
def arConst : List ℕ → ℚ → Except String (List ℕ) := fun _ _ => Except.ok []

/-- An `association_rules` collaborator that succeeds on the first pass. -/
def arFirstHit : List ℕ → ℚ → Except String (List ℕ) :=
  fun _ _ => Except.ok [1]

/-- An `association_rules` collaborator that yields rules only at the
secondary confidence threshold. -/
def arSecondHit : List ℕ → ℚ → Except String (List ℕ) :=
  fun _ q =>
    if q = MIN_CONFIDENCE_SECONDARY then Except.ok [2] else Except.ok []

/-- An `association_rules` collaborator that yields rules only at the minimum
confidence threshold. -/
def arThirdHit : List ℕ → ℚ → Except String (List ℕ) :=
  fun _ q =>
    if q = MIN_CONFIDENCE_MINIMUM then Except.ok [3] else Except.ok []

/-- An `association_rules` collaborator that raises, as mlxtend does on an
empty frequent-itemset frame. -/
def arRaises : List ℕ → ℚ → Except String (List ℕ) :=
  fun _ _ => Except.error "The input DataFrame is empty"

/-! ### Helper lemmas -/

theorem idxmaxGo_mem (best : Rule) (l : List Rule) :
    idxmaxGo best l = best ∨ idxmaxGo best l ∈ l := by
  induction l generalizing best with
  | nil => exact Or.inl rfl
  | cons r rs ih =>
    rw [idxmaxGo]
    rcases ih (if best.confidence < r.confidence then r else best) with h | h
    · by_cases hc : best.confidence < r.confidence
      · right
        rw [h, if_pos hc]
        exact List.mem_cons_self _ _
      · left
        rw [h, if_neg hc]
    · right
      exact List.mem_cons_of_mem _ h

theorem idxmaxGo_le (best : Rule) (l : List Rule) :
    best.confidence ≤ (idxmaxGo best l).confidence ∧
      ∀ r ∈ l, r.confidence ≤ (idxmaxGo best l).confidence := by
  induction l generalizing best with
  | nil =>
    refine ⟨le_rfl, ?_⟩
    intro r hr
    cases hr
  | cons r rs ih =>
    rw [idxmaxGo]
    obtain ⟨h1, h2⟩ := ih (if best.confidence < r.confidence then r else best)
    constructor
    · refine le_trans ?_ h1
      by_cases hc : best.confidence < r.confidence
      · rw [if_pos hc]
        exact le_of_lt hc
      · rw [if_neg hc]
    · intro x hx
      rcases List.mem_cons.mp hx with rfl | hx
      · refine le_trans ?_ h1
        by_cases hc : best.confidence < x.confidence
        · rw [if_pos hc]
        · rw [if_neg hc]
          exact le_of_not_lt hc
      · exact h2 x hx

theorem idxmaxConfidence_none_iff (l : List Rule) :
    idxmaxConfidence l = none ↔ l = [] := by
  cases l with
  | nil => simp [idxmaxConfidence]
  | cons r rs => simp [idxmaxConfidence]

theorem idxmaxConfidence_spec {l : List Rule} {b : Rule}
    (h : idxmaxConfidence l = some b) :
    b ∈ l ∧ ∀ r ∈ l, r.confidence ≤ b.confidence := by
  cases l with
  | nil => cases h
  | cons r rs =>
    rw [idxmaxConfidence] at h
    injection h with h
    subst h
    constructor
    · rcases idxmaxGo_mem r rs with h | h
      · rw [h]
        exact List.mem_cons_self _ _
      · exact List.mem_cons_of_mem _ h
    · intro x hx
      rcases List.mem_cons.mp hx with rfl | hx
      · exact (idxmaxGo_le x rs).1
      · exact (idxmaxGo_le r rs).2 x hx

theorem mem_exactMatches {input_items : List String} {rules : List Rule}
    {r : Rule} :
    r ∈ exactMatches input_items rules ↔
      r ∈ rules ∧ r.antecedents = input_items.toFinset := by
  simp [exactMatches, List.mem_filter]

theorem mem_singletonMatches {first_item : String} {rules : List Rule}
    {r : Rule} :
    r ∈ singletonMatches first_item rules ↔
      r ∈ rules ∧ r.antecedents = ({first_item} : Finset String) := by
  simp [singletonMatches, List.mem_filter]

/-! ### Claim theorems -/

/-- C8: the support escalation list 0.005 > 0.002 > 0.001 and the confidence
escalation list 0.01 > 0.005 > 0.001 are both strictly decreasing, and each
threshold is the fixed configuration constant of lines 9-14. -/
theorem thresholds_strictly_decreasing :
    (MIN_SUPPORT_PRIMARY = 0.005 ∧ MIN_SUPPORT_SECONDARY = 0.002 ∧
      MIN_SUPPORT_MINIMUM = 0.001 ∧
      MIN_SUPPORT_PRIMARY > MIN_SUPPORT_SECONDARY ∧
      MIN_SUPPORT_SECONDARY > MIN_SUPPORT_MINIMUM) ∧
    (MIN_CONFIDENCE_PRIMARY = 0.01 ∧ MIN_CONFIDENCE_SECONDARY = 0.005 ∧
      MIN_CONFIDENCE_MINIMUM = 0.001 ∧
      MIN_CONFIDENCE_PRIMARY > MIN_CONFIDENCE_SECONDARY ∧
      MIN_CONFIDENCE_SECONDARY > MIN_CONFIDENCE_MINIMUM) := by
  refine ⟨⟨rfl, rfl, rfl, ?_, ?_⟩, ⟨rfl, rfl, rfl, ?_, ?_⟩⟩ <;>
    norm_num [MIN_SUPPORT_PRIMARY, MIN_SUPPORT_SECONDARY, MIN_SUPPORT_MINIMUM,
      MIN_CONFIDENCE_PRIMARY, MIN_CONFIDENCE_SECONDARY, MIN_CONFIDENCE_MINIMUM]

/-- C1: for every rule set (well-formed per the data model) and every query, if
some rule's antecedent set equals the set of the query's items with duplicates
dropped, then `find_best_recommendation` returns an item taken from the
consequent of a maximum-confidence rule among those exact matches, and never
reaches the singleton fallback. -/
theorem resolver_exact_match (input_items : List String) (rules : List Rule)
    (hwf : ∀ r ∈ rules, RuleWF r)
    (hex : ∃ r ∈ rules, r.antecedents = input_items.toFinset) :
    ∃ best c,
      best ∈ rules ∧ best.antecedents = input_items.toFinset ∧
      (∀ r ∈ rules, r.antecedents = input_items.toFinset →
        r.confidence ≤ best.confidence) ∧
      c ∈ best.consequents ∧
      find_best_recommendation input_items rules = Except.ok (some c) := by
  obtain ⟨r0, hr0, ha0⟩ := hex
  have hr0m : r0 ∈ exactMatches input_items rules :=
    mem_exactMatches.mpr ⟨hr0, ha0⟩
  have hmne : exactMatches input_items rules ≠ [] := by
    intro h
    rw [h] at hr0m
    cases hr0m
  obtain ⟨b, hb⟩ :
      ∃ b, idxmaxConfidence (exactMatches input_items rules) = some b := by
    cases hidx : idxmaxConfidence (exactMatches input_items rules) with
    | none => exact absurd ((idxmaxConfidence_none_iff _).mp hidx) hmne
    | some b => exact ⟨b, rfl⟩
  obtain ⟨hbm, hbmax⟩ := idxmaxConfidence_spec hb
  obtain ⟨hbr, hba⟩ := mem_exactMatches.mp hbm
  obtain ⟨c, cs, hc⟩ : ∃ c cs, b.consequents = c :: cs := by
    cases hcs : b.consequents with
    | nil => exact absurd hcs (hwf b hbr).2
    | cons c cs => exact ⟨c, cs, rfl⟩
  have hner : rules.isEmpty = false := by
    cases rules with
    | nil => cases hr0
    | cons _ _ => rfl
  refine ⟨b, c, hbr, hba, ?_, ?_, ?_⟩
  · intro r hr har
    exact hbmax r (mem_exactMatches.mpr ⟨hr, har⟩)
  · rw [hc]
    exact List.mem_cons_self _ _
  · simp [find_best_recommendation, hner, hb, hc]

/-- C2: for every well-formed rule set and non-empty query with no
exact-antecedent match, the resolver takes the query's first element alone: if
some rule has exactly that singleton antecedent it returns an item from the
consequent of a maximum-confidence such rule, and otherwise it returns `None`. -/
theorem resolver_singleton_fallback (first_item : String) (rest : List String)
    (rules : List Rule) (hwf : ∀ r ∈ rules, RuleWF r)
    (hnoexact : ∀ r ∈ rules, r.antecedents ≠ (first_item :: rest).toFinset) :
    ((∃ r ∈ rules, r.antecedents = ({first_item} : Finset String)) →
      ∃ best c,
        best ∈ rules ∧ best.antecedents = ({first_item} : Finset String) ∧
        (∀ r ∈ rules, r.antecedents = ({first_item} : Finset String) →
          r.confidence ≤ best.confidence) ∧
        c ∈ best.consequents ∧
        find_best_recommendation (first_item :: rest) rules =
          Except.ok (some c)) ∧
    ((∀ r ∈ rules, r.antecedents ≠ ({first_item} : Finset String)) →
      find_best_recommendation (first_item :: rest) rules = Except.ok none) := by
  have hexact_nil : exactMatches (first_item :: rest) rules = [] := by
    rw [exactMatches, List.filter_eq_nil_iff]
    intro r hr
    simpa using hnoexact r hr
  have hidx1 :
      idxmaxConfidence (exactMatches (first_item :: rest) rules) = none := by
    rw [hexact_nil]
    rfl
  constructor
  · rintro ⟨r0, hr0, ha0⟩
    have hr0m : r0 ∈ singletonMatches first_item rules :=
      mem_singletonMatches.mpr ⟨hr0, ha0⟩
    have hmne : singletonMatches first_item rules ≠ [] := by
      intro h
      rw [h] at hr0m
      cases hr0m
    obtain ⟨b, hb⟩ :
        ∃ b, idxmaxConfidence (singletonMatches first_item rules) = some b := by
      cases hidx : idxmaxConfidence (singletonMatches first_item rules) with
      | none => exact absurd ((idxmaxConfidence_none_iff _).mp hidx) hmne
      | some b => exact ⟨b, rfl⟩
    obtain ⟨hbm, hbmax⟩ := idxmaxConfidence_spec hb
    obtain ⟨hbr, hba⟩ := mem_singletonMatches.mp hbm
    obtain ⟨c, cs, hc⟩ : ∃ c cs, b.consequents = c :: cs := by
      cases hcs : b.consequents with
      | nil => exact absurd hcs (hwf b hbr).2
      | cons c cs => exact ⟨c, cs, rfl⟩
    have hner : rules.isEmpty = false := by
      cases rules with
      | nil => cases hr0
      | cons _ _ => rfl
    refine ⟨b, c, hbr, hba, ?_, ?_, ?_⟩
    · intro r hr har
      exact hbmax r (mem_singletonMatches.mpr ⟨hr, har⟩)
    · rw [hc]
      exact List.mem_cons_self _ _
    · simp [find_best_recommendation, hner, hidx1, hb, hc]
  · intro hnosing
    by_cases hner : rules.isEmpty
    · simp [find_best_recommendation, hner]
    · have hsing_nil : singletonMatches first_item rules = [] := by
        rw [singletonMatches, List.filter_eq_nil_iff]
        intro r hr
        simpa using hnosing r hr
      have hidx2 :
          idxmaxConfidence (singletonMatches first_item rules) = none := by
        rw [hsing_nil]
        rfl
      simp [find_best_recommendation, hner, hidx1, hidx2]

/-- C3: for every query (empty included) and every well-formed rule set (empty
included), `find_best_recommendation` returns either a single item or `None`,
never a raised error; and it returns `None` when the rule set or the query is
empty. -/
theorem resolver_total (input_items : List String) (rules : List Rule)
    (hwf : ∀ r ∈ rules, RuleWF r) :
    (∃ out, find_best_recommendation input_items rules = Except.ok out) ∧
    (rules = [] → find_best_recommendation input_items rules = Except.ok none) ∧
    (input_items = [] →
      find_best_recommendation input_items rules = Except.ok none) := by
  by_cases hner : rules.isEmpty
  · refine ⟨⟨none, ?_⟩, fun _ => ?_, fun _ => ?_⟩ <;>
      simp [find_best_recommendation, hner]
  · have hrules_ne : rules ≠ [] := by
      intro h
      rw [h] at hner
      exact hner rfl
    refine ⟨?_, fun h => absurd h hrules_ne, ?_⟩
    · cases hidx : idxmaxConfidence (exactMatches input_items rules) with
      | some b =>
        have hbr : b ∈ rules :=
          (mem_exactMatches.mp (idxmaxConfidence_spec hidx).1).1
        obtain ⟨c, cs, hc⟩ : ∃ c cs, b.consequents = c :: cs := by
          cases hcs : b.consequents with
          | nil => exact absurd hcs (hwf b hbr).2
          | cons c cs => exact ⟨c, cs, rfl⟩
        exact ⟨some c, by simp [find_best_recommendation, hner, hidx, hc]⟩
      | none =>
        cases hitems : input_items with
        | nil =>
          exact ⟨none, by simp [find_best_recommendation, hner, hitems ▸ hidx]⟩
        | cons first_item rest =>
          cases hidx2 :
              idxmaxConfidence (singletonMatches first_item rules) with
          | some b =>
            have hbr : b ∈ rules :=
              (mem_singletonMatches.mp (idxmaxConfidence_spec hidx2).1).1
            obtain ⟨c, cs, hc⟩ : ∃ c cs, b.consequents = c :: cs := by
              cases hcs : b.consequents with
              | nil => exact absurd hcs (hwf b hbr).2
              | cons c cs => exact ⟨c, cs, rfl⟩
            refine ⟨some c, ?_⟩
            simp [find_best_recommendation, hner, hitems ▸ hidx, hidx2, hc]
          | none =>
            refine ⟨none, ?_⟩
            simp [find_best_recommendation, hner, hitems ▸ hidx, hidx2]
    · intro hitems
      subst hitems
      have hexact_nil : exactMatches [] rules = [] := by
        rw [exactMatches, List.filter_eq_nil_iff]
        intro r hr
        simpa using (hwf r hr).1
      have hidx :
          idxmaxConfidence (exactMatches ([] : List String) rules) = none := by
        rw [hexact_nil]
        rfl
      simp [find_best_recommendation, hner, hidx]

/-- C9: for every input string, `parse_input_items` returns exactly the first 3
(in input order) of the cleaned pieces — each comma-separated piece stripped and
lowercased, empty strings dropped, duplicates kept — so the result has at most 3
items, each non-empty and of the form `lower (strip piece)` for some piece of
the input. -/
theorem parser_truncation (s : List Char) :
    parse_input_items s =
      (((splitOnComma s).map (fun item => lower (strip item))).filter
        (fun item => item ≠ [])).take 3 ∧
    (parse_input_items s).length ≤ 3 ∧
    ∀ x ∈ parse_input_items s,
      x ≠ [] ∧ ∃ p ∈ splitOnComma s, x = lower (strip p) := by
  have heq : parse_input_items s =
      (((splitOnComma s).map (fun item => lower (strip item))).filter
        (fun item => item ≠ [])).take 3 := by
    rw [parse_input_items]
    by_cases h : (((splitOnComma s).map (fun item => lower (strip item))).filter
        (fun item => item ≠ [])).length > 3
    · simp [h]
    · rw [if_neg h, List.take_of_length_le (le_of_not_lt h)]
  refine ⟨heq, ?_, ?_⟩
  · rw [heq]
    exact List.length_take_le _ _
  · intro x hx
    rw [heq] at hx
    have hx' := List.mem_filter.mp (List.mem_of_mem_take hx)
    obtain ⟨p, hp, hpe⟩ := List.mem_map.mp hx'.1
    refine ⟨by simpa using hx'.2, p, hp, hpe.symm⟩

/-- C4: mining first runs `apriori` at 0.005; iff that is empty it reruns at
0.002; iff that is also empty it reruns at 0.001; no further passes occur after
the first non-empty result, and an empty final collection is an `Except.ok`
value, not a raised error. The recorded support-call trace of
`generate_association_rules` is exactly the mining trace. -/
theorem support_escalation {α β : Type} (ap : ℚ → Except String (List α))
    (ar : List α → ℚ → Except String (List β)) (c : ℚ) :
    (∀ l, ap MIN_SUPPORT_PRIMARY = Except.ok l → l ≠ [] →
      mineFrequentItemsets ap = ([MIN_SUPPORT_PRIMARY], Except.ok l)) ∧
    (ap MIN_SUPPORT_PRIMARY = Except.ok [] →
      ∀ l, ap MIN_SUPPORT_SECONDARY = Except.ok l → l ≠ [] →
      mineFrequentItemsets ap =
        ([MIN_SUPPORT_PRIMARY, MIN_SUPPORT_SECONDARY], Except.ok l)) ∧
    (ap MIN_SUPPORT_PRIMARY = Except.ok [] →
      ap MIN_SUPPORT_SECONDARY = Except.ok [] →
      ∀ l, ap MIN_SUPPORT_MINIMUM = Except.ok l →
      mineFrequentItemsets ap =
        ([MIN_SUPPORT_PRIMARY, MIN_SUPPORT_SECONDARY, MIN_SUPPORT_MINIMUM],
          Except.ok l)) ∧
    (generate_association_rules ap ar c).supportCalls =
      (mineFrequentItemsets ap).1 := by
  refine ⟨?_, ?_, ?_, ?_⟩
  · intro l h1 hl
    have hl' : l.isEmpty = false := by
      cases l with
      | nil => exact absurd rfl hl
      | cons _ _ => rfl
    simp [mineFrequentItemsets, h1, hl']
  · intro h1 l h2 hl
    have hl' : l.isEmpty = false := by
      cases l with
      | nil => exact absurd rfl hl
      | cons _ _ => rfl
    simp [mineFrequentItemsets, h1, h2, hl']
  · intro h1 h2 l h3
    simp [mineFrequentItemsets, h1, h2, h3]
  · rw [generate_association_rules]
    cases h : (mineFrequentItemsets ap).2 with
    | error e => rfl
    | ok fi =>
      cases h2 : (genRulesEscalation ar fi c).2 with
      | error e => simp [h2]
      | ok rs => simp [h2]

/-- C5: walking the fixed confidence list, if the pass at the caller's
threshold yields an empty rule set, generation is retried on the same frequent
itemsets at the next threshold of the fixed list (0.005), and again at the
loosest (0.001) if still empty, stopping at the first non-empty result or after
the list is exhausted. -/
theorem confidence_escalation {α β : Type}
    (ar : List α → ℚ → Except String (List β)) (fi : List α) (c : ℚ) :
    (∀ l, ar fi c = Except.ok l → l ≠ [] →
      genRulesEscalation ar fi c = ([c], Except.ok l)) ∧
    (ar fi c = Except.ok [] →
      ∀ l, ar fi MIN_CONFIDENCE_SECONDARY = Except.ok l → l ≠ [] →
      genRulesEscalation ar fi c =
        ([c, MIN_CONFIDENCE_SECONDARY], Except.ok l)) ∧
    (ar fi c = Except.ok [] → ar fi MIN_CONFIDENCE_SECONDARY = Except.ok [] →
      ∀ l, ar fi MIN_CONFIDENCE_MINIMUM = Except.ok l →
      genRulesEscalation ar fi c =
        ([c, MIN_CONFIDENCE_SECONDARY, MIN_CONFIDENCE_MINIMUM],
          Except.ok l)) := by
  refine ⟨?_, ?_, ?_⟩
  · intro l h1 hl
    have hl' : l.isEmpty = false := by
      cases l with
      | nil => exact absurd rfl hl
      | cons _ _ => rfl
    simp [genRulesEscalation, h1, hl']
  · intro h1 l h2 hl
    have hl' : l.isEmpty = false := by
      cases l with
      | nil => exact absurd rfl hl
      | cons _ _ => rfl
    simp [genRulesEscalation, h1, h2, hl']
  · intro h1 h2 l h3
    simp [genRulesEscalation, h1, h2, h3]

/-- C10: only the first `association_rules` pass uses the caller's threshold
`c`; a first retry always uses the constant 0.005 and a second retry always the
constant 0.001, whatever `c` is — so when `c < 0.005`, the threshold a first
retry applies is strictly above `c`, i.e. not looser. -/
theorem confidence_retry_constants {α β : Type}
    (ar : List α → ℚ → Except String (List β)) (fi : List α) (c : ℚ) :
    ((genRulesEscalation ar fi c).1 = [c] ∨
     (genRulesEscalation ar fi c).1 = [c, MIN_CONFIDENCE_SECONDARY] ∨
     (genRulesEscalation ar fi c).1 =
       [c, MIN_CONFIDENCE_SECONDARY, MIN_CONFIDENCE_MINIMUM]) ∧
    (c < MIN_CONFIDENCE_SECONDARY →
      ∀ t, ((genRulesEscalation ar fi c).1)[1]? = some t → c < t) := by
  have htr : (genRulesEscalation ar fi c).1 = [c] ∨
      (genRulesEscalation ar fi c).1 = [c, MIN_CONFIDENCE_SECONDARY] ∨
      (genRulesEscalation ar fi c).1 =
        [c, MIN_CONFIDENCE_SECONDARY, MIN_CONFIDENCE_MINIMUM] := by
    cases h1 : ar fi c with
    | error e => left; simp [genRulesEscalation, h1]
    | ok r1 =>
      by_cases hr1 : r1.isEmpty
      · cases h2 : ar fi MIN_CONFIDENCE_SECONDARY with
        | error e => right; left; simp [genRulesEscalation, h1, hr1, h2]
        | ok r2 =>
          by_cases hr2 : r2.isEmpty
          · cases h3 : ar fi MIN_CONFIDENCE_MINIMUM with
            | error e =>
              right; right; simp [genRulesEscalation, h1, hr1, h2, hr2, h3]
            | ok r3 =>
              right; right; simp [genRulesEscalation, h1, hr1, h2, hr2, h3]
          · right; left; simp [genRulesEscalation, h1, hr1, h2, hr2]
      · left; simp [genRulesEscalation, h1, hr1]
  refine ⟨htr, ?_⟩
  intro hc t ht
  rcases htr with htr | htr | htr <;> rw [htr] at ht <;> simp at ht
  · rw [← ht]
    exact hc
  · rw [← ht]
    exact hc

/-- C7: no error raised by the `apriori` or `association_rules` collaborators
propagates out of `generate_association_rules`: an error anywhere degrades the
result to the empty rule list (and stops further calls), while a successful run
returns the escalated rule list unchanged. -/
theorem error_degrades_to_empty {α β : Type} (ap : ℚ → Except String (List α))
    (ar : List α → ℚ → Except String (List β)) (c : ℚ) :
    (∀ e, (mineFrequentItemsets ap).2 = Except.error e →
      (generate_association_rules ap ar c).result = [] ∧
      (generate_association_rules ap ar c).confCalls = []) ∧
    (∀ fi e, (mineFrequentItemsets ap).2 = Except.ok fi →
      (genRulesEscalation ar fi c).2 = Except.error e →
      (generate_association_rules ap ar c).result = []) ∧
    (∀ fi rs, (mineFrequentItemsets ap).2 = Except.ok fi →
      (genRulesEscalation ar fi c).2 = Except.ok rs →
      (generate_association_rules ap ar c).result = rs) := by
  refine ⟨?_, ?_, ?_⟩
  · intro e h
    rw [generate_association_rules]
    simp [h]
  · intro fi e h h2
    rw [generate_association_rules]
    simp [h, h2]
  · intro fi rs h h2
    rw [generate_association_rules]
    simp [h, h2]

/-- C6: when every support pass mines an empty frequent-itemset collection, and
the `association_rules` collaborator raises on an empty collection (mlxtend
rejects an empty frequent-itemset frame with `ValueError`), the caught error
makes `generate_association_rules` return the empty rule list after a single
`association_rules` call: no confidence escalation, no propagated failure. -/
theorem empty_mining_empty_rules {α β : Type} (ap : ℚ → Except String (List α))
    (ar : List α → ℚ → Except String (List β)) (c : ℚ)
    (h1 : ap MIN_SUPPORT_PRIMARY = Except.ok ([] : List α))
    (h2 : ap MIN_SUPPORT_SECONDARY = Except.ok [])
    (h3 : ap MIN_SUPPORT_MINIMUM = Except.ok [])
    (har : ∀ q, ∃ e, ar [] q = Except.error e) :
    (generate_association_rules ap ar c).result = [] ∧
    (generate_association_rules ap ar c).confCalls = [c] := by
  have hm : mineFrequentItemsets ap =
      ([MIN_SUPPORT_PRIMARY, MIN_SUPPORT_SECONDARY, MIN_SUPPORT_MINIMUM],
        Except.ok []) := by
    simp [mineFrequentItemsets, h1, h2, h3]
  obtain ⟨e, he⟩ := har c
  have hg : genRulesEscalation ar [] c = ([c], Except.error e) := by
    simp [genRulesEscalation, he]
  rw [generate_association_rules]
  simp [hm, hg]

/-! ### Witnesses: the theorems instantiated on concrete inputs -/

/-- Closed instance of `resolver_exact_match`: on `sampleRules`, the query
`[a, b]` is matched exactly by the rule `{a, b} → {c}`. -/
theorem resolver_exact_match_witness :
    ∃ best c,
      best ∈ sampleRules ∧
      best.antecedents = (["a", "b"] : List String).toFinset ∧
      (∀ r ∈ sampleRules, r.antecedents = (["a", "b"] : List String).toFinset →
        r.confidence ≤ best.confidence) ∧
      c ∈ best.consequents ∧
      find_best_recommendation ["a", "b"] sampleRules = Except.ok (some c) :=
  resolver_exact_match ["a", "b"] sampleRules (by decide)
    ⟨ruleAB, by simp [sampleRules], by decide⟩

/-- Closed instance of `resolver_singleton_fallback`: on `sampleRules`, the
query `[a, x]` has no exact match and falls back to the singleton `{a}`. -/
theorem resolver_singleton_fallback_witness :
    ∃ best c,
      best ∈ sampleRules ∧ best.antecedents = ({"a"} : Finset String) ∧
      (∀ r ∈ sampleRules, r.antecedents = ({"a"} : Finset String) →
        r.confidence ≤ best.confidence) ∧
      c ∈ best.consequents ∧
      find_best_recommendation ["a", "x"] sampleRules = Except.ok (some c) :=
  (resolver_singleton_fallback "a" ["x"] sampleRules (by decide) (by decide)).1
    ⟨ruleA, by simp [sampleRules], by decide⟩

/-- Closed instance of `resolver_total` on a query unknown to `sampleRules`. -/
theorem resolver_total_witness :
    (∃ out, find_best_recommendation ["z"] sampleRules = Except.ok out) ∧
    (sampleRules = [] →
      find_best_recommendation ["z"] sampleRules = Except.ok none) ∧
    ((["z"] : List String) = [] →
      find_best_recommendation ["z"] sampleRules = Except.ok none) :=
  resolver_total ["z"] sampleRules (by decide)

/-- Closed instance of `parser_truncation` on the input `" AB, c"`. -/
theorem parser_truncation_witness :
    "ab".data ≠ [] ∧
    ∃ p ∈ splitOnComma " AB, c".data, "ab".data = lower (strip p) :=
  (parser_truncation " AB, c".data).2.2 "ab".data (by decide)

/-- Closed instance of `support_escalation` on collaborators hitting at the
primary, secondary, and minimum support passes respectively. -/
theorem support_escalation_witness :
    mineFrequentItemsets apPrimaryHit =
      ([MIN_SUPPORT_PRIMARY], Except.ok [1]) ∧
    mineFrequentItemsets apSecondaryHit =
      ([MIN_SUPPORT_PRIMARY, MIN_SUPPORT_SECONDARY], Except.ok [2]) ∧
    mineFrequentItemsets apAllEmpty =
      ([MIN_SUPPORT_PRIMARY, MIN_SUPPORT_SECONDARY, MIN_SUPPORT_MINIMUM],
        Except.ok []) :=
  ⟨(support_escalation apPrimaryHit arConst MIN_CONFIDENCE_PRIMARY).1 [1] rfl
      (by simp),
    (support_escalation apSecondaryHit arConst MIN_CONFIDENCE_PRIMARY).2.1
      (by simp [apSecondaryHit]) [2]
      (by norm_num [apSecondaryHit, MIN_SUPPORT_PRIMARY, MIN_SUPPORT_SECONDARY])
      (by simp),
    (support_escalation apAllEmpty arConst MIN_CONFIDENCE_PRIMARY).2.2.1 rfl rfl
      [] rfl⟩

/-- Closed instance of `confidence_escalation` on collaborators hitting at the
first, second, and third confidence passes respectively. -/
theorem confidence_escalation_witness :
    genRulesEscalation arFirstHit [] MIN_CONFIDENCE_PRIMARY =
      ([MIN_CONFIDENCE_PRIMARY], Except.ok [1]) ∧
    genRulesEscalation arSecondHit [] MIN_CONFIDENCE_PRIMARY =
      ([MIN_CONFIDENCE_PRIMARY, MIN_CONFIDENCE_SECONDARY], Except.ok [2]) ∧
    genRulesEscalation arThirdHit [] MIN_CONFIDENCE_PRIMARY =
      ([MIN_CONFIDENCE_PRIMARY, MIN_CONFIDENCE_SECONDARY,
        MIN_CONFIDENCE_MINIMUM], Except.ok [3]) :=
  ⟨(confidence_escalation arFirstHit [] MIN_CONFIDENCE_PRIMARY).1 [1] rfl
      (by simp),
    (confidence_escalation arSecondHit [] MIN_CONFIDENCE_PRIMARY).2.1
      (by norm_num [arSecondHit, MIN_CONFIDENCE_PRIMARY,
        MIN_CONFIDENCE_SECONDARY])
      [2] (by simp [arSecondHit]) (by simp),
    (confidence_escalation arThirdHit [] MIN_CONFIDENCE_PRIMARY).2.2
      (by norm_num [arThirdHit, MIN_CONFIDENCE_PRIMARY,
        MIN_CONFIDENCE_MINIMUM])
      (by norm_num [arThirdHit, MIN_CONFIDENCE_SECONDARY,
        MIN_CONFIDENCE_MINIMUM])
      [3] (by simp [arThirdHit])⟩

/-- Closed instance of `confidence_retry_constants`: with caller threshold
0.001, the first retry still applies the constant 0.005, which is not looser. -/
theorem confidence_retry_constants_witness :
    (0.001 : ℚ) < MIN_CONFIDENCE_SECONDARY :=
  (confidence_retry_constants arConst [] 0.001).2
    (by norm_num [MIN_CONFIDENCE_SECONDARY]) MIN_CONFIDENCE_SECONDARY rfl

/-- Closed instance of `error_degrades_to_empty`: a raising `apriori`, a
raising `association_rules`, and a fully successful run. -/
theorem error_degrades_to_empty_witness :
    ((generate_association_rules apRaises arConst
        MIN_CONFIDENCE_PRIMARY).result = [] ∧
      (generate_association_rules apRaises arConst
        MIN_CONFIDENCE_PRIMARY).confCalls = []) ∧
    (generate_association_rules apPrimaryHit arRaises
      MIN_CONFIDENCE_PRIMARY).result = [] ∧
    (generate_association_rules apPrimaryHit arFirstHit
      MIN_CONFIDENCE_PRIMARY).result = [1] :=
  ⟨(error_degrades_to_empty apRaises arConst MIN_CONFIDENCE_PRIMARY).1
      "boom" rfl,
    (error_degrades_to_empty apPrimaryHit arRaises MIN_CONFIDENCE_PRIMARY).2.1
      [1] "The input DataFrame is empty" rfl rfl,
    (error_degrades_to_empty apPrimaryHit arFirstHit MIN_CONFIDENCE_PRIMARY).2.2
      [1] [1] rfl rfl⟩

/-- Closed instance of `empty_mining_empty_rules`: all three support passes
empty and a raising `association_rules` collaborator. -/
theorem empty_mining_empty_rules_witness :
    (generate_association_rules apAllEmpty arRaises
      MIN_CONFIDENCE_PRIMARY).result = [] ∧
    (generate_association_rules apAllEmpty arRaises
      MIN_CONFIDENCE_PRIMARY).confCalls = [MIN_CONFIDENCE_PRIMARY] :=
  empty_mining_empty_rules apAllEmpty arRaises MIN_CONFIDENCE_PRIMARY rfl rfl
    rfl (fun _ => ⟨"The input DataFrame is empty", rfl⟩)

end PurchProposal
